import Mathlib

/-!
Verification development for the vendored Discord client library of the
Template-Selfbot repository.  The definitions below are a shallow embedding of
the code in src/venv/lib/python3.9/site-packages/discord/threads.py and
discord/enums.py: Python dicts keyed by user id become insertion-ordered
association lists, datetimes become Option Nat (parse_time of an absent key is
None), and coroutine suspension points (the gateway wait in fetch_members)
become explicit parameters carrying the stream of incoming events.
-/

namespace Selfbot

/-- A thread member record (discord/threads.py, class ThreadMember).
Fields follow ThreadMember.__slots__: id, thread_id, joined_at, flags
(the parent/_state back references are carried by the enclosing Thread). -/
structure ThreadMember where
  id : Nat
  thread_id : Nat
  joined_at : Option Nat
  flags : Option Nat
deriving DecidableEq, Repr

/-- Thread._members: a Python dict keyed by user id, modelled as an
insertion-ordered association list with unique keys. -/
abbrev MemberMap := List (Nat × ThreadMember)

/-- Python dict lookup d.get(k): the entry with the key (keys are unique, so
the first match is the entry). -/
def dget (k : Nat) : MemberMap → Option ThreadMember
  | [] => none
  | p :: rest => if p.1 = k then some p.2 else dget k rest

/-- Python dict assignment d[k] = v: replaces the value in place when the key
exists (insertion position preserved), otherwise appends at the end. -/
def dset (k : Nat) (v : ThreadMember) : MemberMap → MemberMap
  | [] => [(k, v)]
  | p :: rest => if p.1 = k then (k, v) :: rest else p :: dset k v rest

/-- Python dict d.pop(k, None): the removed value (or None when the key is
absent) together with the remaining dict. -/
def dpop (k : Nat) : MemberMap → Option ThreadMember × MemberMap
  | [] => (none, [])
  | p :: rest =>
    if p.1 = k then (some p.2, rest)
    else
      let r := dpop k rest
      (r.1, p :: r.2)

/-- Python dict .values() in insertion order (Thread.members reads
list(self._members.values())). -/
def dvalues (m : MemberMap) : List ThreadMember :=
  m.map (fun p => p.2)

/-- The state of a Thread (discord/threads.py, Thread.__slots__).  The _state
back reference is reduced to the one datum the thread code reads from it,
the local user's id (state.self_id / state.user.id), which is passed to the
operations separately; guild is reduced to its id. -/
structure Thread where
  name : String
  id : Nat
  guild_id : Nat
  type : Nat
  members : MemberMap
  owner_id : Nat
  parent_id : Nat
  last_message_id : Option Nat
  message_count : Nat
  member_count : Nat
  slowmode_delay : Nat
  locked : Bool
  archived : Bool
  invitable : Bool
  auto_archive_duration : Nat
  archive_timestamp : Option Nat
  member_ids : List Nat
  created_at : Option Nat
deriving DecidableEq, Repr

/-- The thread_metadata object of an update payload
(argument of Thread._unroll_metadata).  archived, auto_archive_duration and
archive_timestamp are mandatory keys; creation_timestamp, locked and
invitable are read with .get and so may be absent. -/
structure ThreadMetadataPayload where
  archived : Bool
  auto_archive_duration : Nat
  archive_timestamp : Option Nat
  creation_timestamp : Option Nat
  locked : Option Bool
  invitable : Option Bool
deriving DecidableEq, Repr

/-- A partial THREAD_UPDATE payload as consumed by Thread._update; every key
is optional (read with .get / _get_as_snowflake). -/
structure UpdatePayload where
  rate_limit_per_user : Option Nat
  thread_metadata : Option ThreadMetadataPayload
  name : Option String
  last_message_id : Option Nat
  message_count : Option Nat
  member_count : Option Nat
  member_ids_preview : Option (List Nat)
deriving DecidableEq, Repr

/-- Thread._unroll_metadata (threads.py lines 182-188): unconditionally
overwrites the metadata attributes; locked defaults to False, invitable to
True, and _created_at to None when the optional keys are absent. -/
def _unroll_metadata (t : Thread) (m : ThreadMetadataPayload) : Thread :=
  { t with
    archived := m.archived
    auto_archive_duration := m.auto_archive_duration
    archive_timestamp := m.archive_timestamp
    created_at := m.creation_timestamp
    locked := m.locked.getD false
    invitable := m.invitable.getD true }

/-- The mutation part of Thread._update (threads.py lines 192-205), applied in
source order: slowmode_delay is assigned unconditionally from
data.get('rate_limit_per_user', 0); each remaining field is assigned only
when its key is present. -/
def applyPayload (t : Thread) (d : UpdatePayload) : Thread :=
  let t1 := { t with slowmode_delay := d.rate_limit_per_user.getD 0 }
  let t2 := match d.thread_metadata with
            | some m => _unroll_metadata t1 m
            | none => t1
  let t3 := match d.name with
            | some n => { t2 with name := n }
            | none => t2
  let t4 := match d.last_message_id with
            | some x => { t3 with last_message_id := some x }
            | none => t3
  let t5 := match d.message_count with
            | some x => { t4 with message_count := x }
            | none => t4
  let t6 := match d.member_count with
            | some x => { t5 with member_count := x }
            | none => t5
  match d.member_ids_preview with
  | some x => { t6 with member_ids := x }
  | none => t6

/-- Thread.__slots__ in declaration order (threads.py lines 122-142). -/
def threadSlots : List String :=
  ["name", "id", "guild", "_type", "_state", "_members", "owner_id",
   "parent_id", "last_message_id", "message_count", "member_count",
   "slowmode_delay", "locked", "archived", "invitable",
   "auto_archive_duration", "archive_timestamp", "_member_ids", "_created_at"]

/-- Contiguous-substring test on character lists (Python's y in x). -/
def containsSub (needle : List Char) : List Char → Bool
  | [] => needle.isEmpty
  | c :: rest => needle.isPrefixOf (c :: rest) || containsSub needle rest

/-- Python's y in x for strings. -/
def strContainsSub (hay needle : String) : Bool :=
  containsSub needle.toList hay.toList

/-- The exclusion set of Thread._update line 207. -/
def updateExcludedNames : List String := ["member", "guild", "state", "count"]

/-- threads.py line 207: attrs = [x for x in self.__slots__ if not any(y in x
for y in ('member', 'guild', 'state', 'count'))]. -/
def observedAttrs : List String :=
  threadSlots.filter (fun x => !(updateExcludedNames.any (fun y => strContainsSub x y)))

/-- Encoding of an attribute value so that distinct slots can be compared
uniformly, mirroring Python's getattr in the comparison on line 209. -/
inductive AttrVal where
  | n : Nat → AttrVal
  | o : Option Nat → AttrVal
  | b : Bool → AttrVal
  | s : String → AttrVal
  | l : List Nat → AttrVal
  | mm : MemberMap → AttrVal
deriving DecidableEq, Repr

/-- getattr(thread, slotName).  _state is the same shared connection-state
object on both sides of the comparison in _update (copy.copy is shallow), so
it is encoded by a constant. -/
def getattr (t : Thread) (a : String) : AttrVal :=
  if a = "name" then .s t.name
  else if a = "id" then .n t.id
  else if a = "guild" then .n t.guild_id
  else if a = "_type" then .n t.type
  else if a = "_state" then .n 0
  else if a = "_members" then .mm t.members
  else if a = "owner_id" then .n t.owner_id
  else if a = "parent_id" then .n t.parent_id
  else if a = "last_message_id" then .o t.last_message_id
  else if a = "message_count" then .n t.message_count
  else if a = "member_count" then .n t.member_count
  else if a = "slowmode_delay" then .n t.slowmode_delay
  else if a = "locked" then .b t.locked
  else if a = "archived" then .b t.archived
  else if a = "invitable" then .b t.invitable
  else if a = "auto_archive_duration" then .n t.auto_archive_duration
  else if a = "archive_timestamp" then .o t.archive_timestamp
  else if a = "_member_ids" then .l t.member_ids
  else if a = "_created_at" then .o t.created_at
  else .n 0

/-- Thread._update (threads.py lines 190-210): old = copy.copy(self); the
fields are merged in place; the function returns old exactly when some
attribute surviving the name filter differs, and None (no diff) otherwise.
Result: (new state, returned diff). -/
def _update (t : Thread) (d : UpdatePayload) : Thread × Option Thread :=
  (applyPayload t d,
   if observedAttrs.any (fun a => decide (getattr (applyPayload t d) a ≠ getattr t a)) then
     some t
   else
     none)

/-- The value of a keyword argument of Thread.edit that is not MISSING. -/
inductive EditVal where
  | s : String → EditVal
  | b : Bool → EditVal
  | n : Nat → EditVal
deriving DecidableEq, Repr

/-- The keyword arguments of Thread.edit; none stands for MISSING. -/
structure EditFields where
  name : Option String
  archived : Option Bool
  locked : Option Bool
  invitable : Option Bool
  slowmode_delay : Option Nat
  auto_archive_duration : Option Nat
deriving DecidableEq, Repr

/-- The payload dict built by Thread.edit (threads.py lines 566-578), with its
keys added in source order; a key appears exactly when the corresponding
argument is not MISSING. -/
def edit_payload (f : EditFields) : List (String × EditVal) :=
  let p : List (String × EditVal) := []
  let p := match f.name with
           | some x => p ++ [("name", .s x)]
           | none => p
  let p := match f.archived with
           | some x => p ++ [("archived", .b x)]
           | none => p
  let p := match f.auto_archive_duration with
           | some x => p ++ [("auto_archive_duration", .n x)]
           | none => p
  let p := match f.locked with
           | some x => p ++ [("locked", .b x)]
           | none => p
  let p := match f.invitable with
           | some x => p ++ [("invitable", .b x)]
           | none => p
  match f.slowmode_delay with
  | some x => p ++ [("rate_limit_per_user", .n x)]
  | none => p

/-- The outbound HTTP request issued by Thread.edit
(state.http.edit_channel(self.id, **payload, reason=reason)). -/
structure EditRequest where
  channel_id : Nat
  payload : List (String × EditVal)
deriving DecidableEq, Repr

/-- Thread.edit (threads.py lines 512-582): builds the payload and
unconditionally awaits state.http.edit_channel; the body contains no test of
self.archived (or of anything else) that could suppress the request, so the
result is always some request. -/
def edit (t : Thread) (f : EditFields) : Option EditRequest :=
  some { channel_id := t.id, payload := edit_payload f }

/-- Errors that can escape Thread.fetch_members: InvalidData raised on
asyncio.TimeoutError (the ProtocolTimeout of the specification), or the
uncaught KeyError raised by ThreadMember._from_data at threads.py line 808
(int(data['user_id']) where data is the single-key wrapper
created on line 682). -/
inductive FetchError where
  | protocolTimeout
  | uncaughtKeyError
deriving DecidableEq, Repr

/-- An element of data['members'] of a THREAD_MEMBER_LIST_UPDATE gateway
event: a guild-member-shaped record; the thread code only inspects it for
presence (threads.py line 805), so it is kept abstract as a user id plus an
opaque tag. -/
structure GatewayMemberEntry where
  user_id : Nat
  tag : Nat
deriving DecidableEq, Repr

/-- The dict argument of ThreadMember.__init__: the keys of a ThreadMember
payload that _from_data reads, each possibly absent. -/
structure ThreadMemberPayload where
  user_id : Option Nat
  id : Option Nat
  join_timestamp : Option Nat
  flags : Option Nat
  member : Option GatewayMemberEntry
deriving DecidableEq, Repr

/-- ThreadMember._from_data (threads.py lines 788-813) for a member of a
thread with id threadId, in a client whose local user id is selfId: id falls
back to state.self_id and thread_id to parent.id when the keys are absent;
when a nested member object is present the code re-reads data['user_id']
WITHOUT a try block, so a payload carrying a member object but no top-level
user_id key raises an uncaught KeyError.  (The guild-member cache calls made
in that branch are outside the member-map claims and are not modelled.) -/
def threadMember_from_data (selfId : Nat) (threadId : Nat)
    (data : ThreadMemberPayload) : Except FetchError ThreadMember :=
  let i := data.user_id.getD selfId
  let tid := data.id.getD threadId
  let tm : ThreadMember :=
    { id := i, thread_id := tid, joined_at := data.join_timestamp, flags := data.flags }
  match data.member with
  | none => .ok tm
  | some _ =>
    match data.user_id with
    | none => .error .uncaughtKeyError
    | some uid => .ok { tm with id := uid }

/-- Thread._add_member (threads.py lines 726-728): stores the member keyed by
its user id unless it is the local user's own record. -/
def _add_member (selfId : Nat) (t : Thread) (m : ThreadMember) : Thread :=
  if m.id ≠ selfId then { t with members := dset m.id m t.members } else t

/-- Thread._pop_member (threads.py lines 730-731):
self._members.pop(member_id, None). -/
def _pop_member (t : Thread) (member_id : Nat) : Option ThreadMember × Thread :=
  let r := dpop member_id t.members
  (r.1, { t with members := r.2 })

/-- The setter of the me property (threads.py lines 331-333), the dedicated
self-membership path: self._members[member.id] = member. -/
def setMeMember (t : Thread) (m : ThreadMember) : Thread :=
  { t with members := dset m.id m t.members }

/-- A dispatched THREAD_MEMBER_LIST_UPDATE event: the thread id it correlates
on, its arrival time (in the time units of asyncio.wait_for), and its members
array. -/
structure ThreadMemberListUpdate where
  thread_id : Nat
  time : Nat
  members : List GatewayMemberEntry
deriving DecidableEq, Repr

/-- The timeout passed to asyncio.wait_for in Thread.fetch_members
(threads.py line 678). -/
def fetchMembersTimeout : Nat := 15

/-- state.ws.wait_for('thread_member_list_update', lambda d:
int(d['thread_id']) == self.id): the future resolves with the first incoming
event whose thread_id matches. -/
def wait_for_member_list (events : List ThreadMemberListUpdate) (tid : Nat) :
    Option ThreadMemberListUpdate :=
  events.find? (fun e => e.thread_id == tid)

/-- Thread.fetch_members (threads.py lines 658-686).  The gateway is
represented by the list of events the connection will dispatch, each with its
arrival time: if no correlated event exists, or the first correlated event
arrives after the 15-unit timeout, the call raises InvalidData
(protocolTimeout) with the thread untouched.  Otherwise every element of the
members array is passed to ThreadMember(self, single-key wrapper whose only
key is the nested member object) — the list comprehension on line 682 runs
before any _add_member call, so an error there also leaves the thread
untouched — and the constructed members are merged via _add_member; the call
returns self.members, the values of the updated map. -/
def fetch_members (selfId : Nat) (t : Thread)
    (events : List ThreadMemberListUpdate) :
    Except FetchError (List ThreadMember) × Thread :=
  match wait_for_member_list events t.id with
  | none => (.error .protocolTimeout, t)
  | some ev =>
    if fetchMembersTimeout < ev.time then
      (.error .protocolTimeout, t)
    else
      match ev.members.mapM (fun m =>
        threadMember_from_data selfId t.id
          { user_id := none, id := none, join_timestamp := none, flags := none,
            member := some m }) with
      | .error e => (.error e, t)
      | .ok ms =>
        let t2 := ms.foldl (fun th m => _add_member selfId th m) t
        (.ok (dvalues t2.members), t2)

/-- The three code paths that write to or remove from Thread._members:
the generic event-driven add (_add_member), the removal (_pop_member), and
the dedicated self-membership setter (the me property setter). -/
inductive MemberOp where
  | add : ThreadMember → MemberOp
  | pop : Nat → MemberOp
  | setMe : ThreadMember → MemberOp
deriving DecidableEq, Repr

/-- Apply one member-map operation to the thread. -/
def applyMemberOp (selfId : Nat) (t : Thread) : MemberOp → Thread
  | .add m => _add_member selfId t m
  | .pop k => (_pop_member t k).2
  | .setMe m => setMeMember t m

/-- Apply a sequence of member-map operations in order. -/
def applyMemberOps (selfId : Nat) (t : Thread) (ops : List MemberOp) : Thread :=
  ops.foldl (applyMemberOp selfId) t

/-- Whether an operation is a write of the local user's record through the
dedicated self-membership path. -/
def isSelfSet (selfId : Nat) : MemberOp → Bool
  | .setMe m => m.id == selfId
  | _ => false

/-- An enum member singleton as built by _create_value_cls
(enums.py lines 81-90): a (name, value) named tuple. -/
structure EnumValue (α : Type) where
  name : String
  value : α
deriving DecidableEq, Repr

/-- Dict lookup in cls._enum_value_map_ (keyed by raw value). -/
def lookupEnumValue {α : Type} [DecidableEq α]
    (m : List (α × EnumValue α)) (v : α) : Option (EnumValue α) :=
  (m.find? (fun p => decide (p.1 = v))).map (fun p => p.2)

/-- One iteration of the EnumMeta.__new__ loop over the class attributes
(enums.py lines 123-128): the first declaration of a value wins; a later
declaration with an already-seen value only adds an alias name and leaves the
value map unchanged. -/
def addEnumDecl {α : Type} [DecidableEq α]
    (m : List (α × EnumValue α)) (k : String) (v : α) : List (α × EnumValue α) :=
  match lookupEnumValue m v with
  | some _ => m
  | none => m ++ [(v, { name := k, value := v })]

/-- cls._enum_value_map_ for an enum class declared by the given
(name, value) member list, in declaration order. -/
def enum_value_map {α : Type} [DecidableEq α]
    (decls : List (String × α)) : List (α × EnumValue α) :=
  decls.foldl (fun m kv => addEnumDecl m kv.1 kv.2) []

/-- create_unknown_value (enums.py lines 819-822). -/
def create_unknown_value {α : Type} [ToString α] (v : α) : EnumValue α :=
  { name := "unknown_" ++ toString v, value := v }

/-- try_enum (enums.py lines 825-834): dict hit returns the canonical member;
any lookup failure falls back to the unknown-value proxy. -/
def try_enum {α : Type} [DecidableEq α] [ToString α]
    (decls : List (String × α)) (v : α) : EnumValue α :=
  match lookupEnumValue (enum_value_map decls) v with
  | some ev => ev
  | none => create_unknown_value v

/-- The declared members of ChannelType (enums.py lines 194-205). -/
def channelTypeDecls : List (String × Nat) :=
  [("text", 0), ("private", 1), ("voice", 2), ("group", 3), ("category", 4),
   ("news", 5), ("store", 6), ("news_thread", 10), ("public_thread", 11),
   ("private_thread", 12), ("stage_voice", 13)]

/-- Python ret[-n:] on a list, including the slip that makes -0 mean 0 so
that ret[-0:] is the WHOLE list rather than the empty suffix. -/
def pyTailSlice (l : List Nat) (n : Nat) : List Nat :=
  if n = 0 then l else l.drop (l.length - n)

/-- The async-for body of Thread.purge (threads.py lines 494-508), iterating
over the message ids yielded by the history iterator: count matched messages
since the last flush, flush ret[-50:] whenever count reaches 50 at the top of
an iteration, and after the loop flush ret[-count:].  Returns the batches
submitted to state._delete_messages in order, and ret. -/
def purgeGo (check : Nat → Bool) :
    List Nat → Nat → List Nat → List (List Nat) → List (List Nat) × List Nat
  | [], count, ret, flushes => (flushes ++ [pyTailSlice ret count], ret)
  | msg :: rest, count, ret, flushes =>
    let s := if count = 50 then (0, flushes ++ [pyTailSlice ret 50])
             else (count, flushes)
    if check msg then purgeGo check rest (s.1 + 1) (ret ++ [msg]) s.2
    else purgeGo check rest s.1 ret s.2

/-- Thread.purge (threads.py lines 485-510) restricted to its deletion
bookkeeping: history is the stream of message ids, check the predicate.
Result: (batches submitted for deletion, the returned ret list). -/
def purge (check : Nat → Bool) (history : List Nat) :
    List (List Nat) × List Nat :=
  purgeGo check history 0 [] []

/- Concrete example inputs used by witnesses and counterexamples. -/

/-- An example thread: archived, with an empty member map. -/
def exThreadA : Thread :=
  { name := "general-thread", id := 10, guild_id := 1, type := 11,
    members := [], owner_id := 2, parent_id := 3, last_message_id := none,
    message_count := 4, member_count := 4, slowmode_delay := 0,
    locked := false, archived := true, invitable := true,
    auto_archive_duration := 60, archive_timestamp := some 50,
    member_ids := [2, 7], created_at := some 40 }

/-- An example unarchived thread with slowmode 5 and two cached members. -/
def exThreadB : Thread :=
  { name := "help-thread", id := 20, guild_id := 1, type := 12,
    members := [(1, { id := 1, thread_id := 20, joined_at := some 9, flags := some 0 }),
                (7, { id := 7, thread_id := 20, joined_at := none, flags := none })],
    owner_id := 1, parent_id := 3, last_message_id := some 100,
    message_count := 12, member_count := 2, slowmode_delay := 5,
    locked := false, archived := false, invitable := true,
    auto_archive_duration := 1440, archive_timestamp := some 60,
    member_ids := [1, 7], created_at := some 30 }

/-- A payload with every key absent. -/
def emptyPayload : UpdatePayload :=
  { rate_limit_per_user := none, thread_metadata := none, name := none,
    last_message_id := none, message_count := none, member_count := none,
    member_ids_preview := none }

/-- An edit call that only renames (every other argument MISSING). -/
def exRenameFields : EditFields :=
  { name := some "renamed", archived := none, locked := none,
    invitable := none, slowmode_delay := none, auto_archive_duration := none }

/-- The history stream for the purge slip: fifty matching messages followed
by one message failing the check. -/
def exPurgeHistory : List Nat := (List.range 50).map (fun i => i + 1) ++ [51]

/-- The purge check matching exactly the first fifty example messages. -/
def exPurgeCheck : Nat → Bool := fun m => m ≤ 50

/- Helper lemmas about Thread._update. -/

/-- The sequential field merge of _update collapses to a single record
update. -/
lemma applyPayload_eq (t : Thread) (d : UpdatePayload) :
    applyPayload t d = { t with
      slowmode_delay := d.rate_limit_per_user.getD 0
      archived := match d.thread_metadata with
                  | some m => m.archived
                  | none => t.archived
      auto_archive_duration := match d.thread_metadata with
                               | some m => m.auto_archive_duration
                               | none => t.auto_archive_duration
      archive_timestamp := match d.thread_metadata with
                           | some m => m.archive_timestamp
                           | none => t.archive_timestamp
      created_at := match d.thread_metadata with
                    | some m => m.creation_timestamp
                    | none => t.created_at
      locked := match d.thread_metadata with
                | some m => m.locked.getD false
                | none => t.locked
      invitable := match d.thread_metadata with
                   | some m => m.invitable.getD true
                   | none => t.invitable
      name := d.name.getD t.name
      last_message_id := d.last_message_id.or t.last_message_id
      message_count := d.message_count.getD t.message_count
      member_count := d.member_count.getD t.member_count
      member_ids := d.member_ids_preview.getD t.member_ids } := by
  rcases d with ⟨rl, meta, nm, lmi, mc, mbc, mip⟩
  cases meta <;> cases nm <;> cases lmi <;> cases mc <;> cases mbc <;>
    cases mip <;> rfl

/-- Applying the same payload a second time does not move the state. -/
lemma applyPayload_idem (t : Thread) (d : UpdatePayload) :
    applyPayload (applyPayload t d) d = applyPayload t d := by
  rcases d with ⟨rl, meta, nm, lmi, mc, mbc, mip⟩
  cases meta <;> cases nm <;> cases lmi <;> cases mc <;> cases mbc <;>
    cases mip <;> rfl

/-- The diff returned by _update is empty exactly when every attribute
surviving the name filter is unchanged. -/
lemma update_snd_none_iff (t : Thread) (d : UpdatePayload) :
    (_update t d).2 = none ↔
      ∀ a ∈ observedAttrs, getattr (applyPayload t d) a = getattr t a := by
  show (if observedAttrs.any
          (fun a => decide (getattr (applyPayload t d) a ≠ getattr t a)) then
          some t else none) = none ↔ _
  constructor
  · intro h a ha
    by_contra hne
    have : observedAttrs.any
        (fun a => decide (getattr (applyPayload t d) a ≠ getattr t a)) = true := by
      rw [List.any_eq_true]
      exact ⟨a, ha, decide_eq_true hne⟩
    rw [if_pos this] at h
    exact Option.some_ne_none t h
  · intro h
    rw [if_neg]
    rw [List.any_eq_true]
    rintro ⟨a, ha, hdec⟩
    exact of_decide_eq_true hdec (h a ha)

/-- The name filter of _update keeps exactly these thirteen slots. -/
lemma observedAttrs_eq :
    observedAttrs = ["name", "id", "_type", "owner_id", "parent_id",
      "last_message_id", "slowmode_delay", "locked", "archived", "invitable",
      "auto_archive_duration", "archive_timestamp", "_created_at"] := by
  rfl

/-- C3 (counterexample): the claim that every field absent from the payload
retains its prior value is false: applying a payload with every key absent
(in particular no rate_limit_per_user) to a thread whose slowmode delay is 5
resets the slowmode delay to 0. -/
theorem thread_update_absent_slowmode_cex :
    exThreadB.slowmode_delay = 5 ∧
    emptyPayload.rate_limit_per_user = none ∧
    (_update exThreadB emptyPayload).1.slowmode_delay = 0 :=
  ⟨rfl, rfl, rfl⟩

/-- C3 (amended): fields present in the payload are merged and fields absent
from it retain their prior values, with these exceptions forced by the code:
slowmode_delay is rewritten to data.get('rate_limit_per_user', 0), so it
resets to 0 whenever the key is absent; and when thread_metadata is present,
its optional locked / invitable / creation_timestamp sub-keys reset to
False / True / None when absent from the metadata object.  Identity fields
and the member map are never touched by _update. -/
theorem thread_update_frame (t : Thread) (d : UpdatePayload) :
    (_update t d).1.id = t.id ∧
    (_update t d).1.guild_id = t.guild_id ∧
    (_update t d).1.type = t.type ∧
    (_update t d).1.owner_id = t.owner_id ∧
    (_update t d).1.parent_id = t.parent_id ∧
    (_update t d).1.members = t.members ∧
    (d.name = none → (_update t d).1.name = t.name) ∧
    (d.last_message_id = none →
      (_update t d).1.last_message_id = t.last_message_id) ∧
    (d.message_count = none →
      (_update t d).1.message_count = t.message_count) ∧
    (d.member_count = none → (_update t d).1.member_count = t.member_count) ∧
    (d.member_ids_preview = none →
      (_update t d).1.member_ids = t.member_ids) ∧
    (_update t d).1.slowmode_delay = d.rate_limit_per_user.getD 0 ∧
    (d.thread_metadata = none →
      (_update t d).1.archived = t.archived ∧
      (_update t d).1.locked = t.locked ∧
      (_update t d).1.invitable = t.invitable ∧
      (_update t d).1.auto_archive_duration = t.auto_archive_duration ∧
      (_update t d).1.archive_timestamp = t.archive_timestamp ∧
      (_update t d).1.created_at = t.created_at) ∧
    (∀ m, d.thread_metadata = some m →
      (_update t d).1.archived = m.archived ∧
      (_update t d).1.locked = m.locked.getD false ∧
      (_update t d).1.invitable = m.invitable.getD true ∧
      (_update t d).1.auto_archive_duration = m.auto_archive_duration ∧
      (_update t d).1.archive_timestamp = m.archive_timestamp ∧
      (_update t d).1.created_at = m.creation_timestamp) := by
  have h : (_update t d).1 = applyPayload t d := rfl
  rw [h, applyPayload_eq]
  refine ⟨rfl, rfl, rfl, rfl, rfl, rfl, ?_, ?_, ?_, ?_, ?_, rfl, ?_, ?_⟩
  · intro hn; simp [hn]
  · intro hn; simp [hn]
  · intro hn; simp [hn]
  · intro hn; simp [hn]
  · intro hn; simp [hn]
  · intro hn; simp [hn]
  · intro m hm; simp [hm]

/-- Witness for thread_update_frame at a concrete thread and the empty
payload. -/
theorem thread_update_frame_witness :
    (_update exThreadB emptyPayload).1.name = exThreadB.name ∧
    (_update exThreadB emptyPayload).1.archived = exThreadB.archived :=
  ⟨(thread_update_frame exThreadB emptyPayload).2.2.2.2.2.2.1 rfl,
   ((thread_update_frame exThreadB
      emptyPayload).2.2.2.2.2.2.2.2.2.2.2.2.1 rfl).1⟩

/-- C4: _update returns an empty diff (None instead of the old snapshot)
exactly when no attribute surviving the name-substring exclusion filter
(skipping any slot whose name contains member, guild, state or count)
changed; in particular a payload touching only the approximate counters and
the member-id preview (applied to a thread whose slowmode delay is already
at the 0 value such a payload forces) yields an empty diff. -/
theorem thread_update_dedup (t : Thread) (d : UpdatePayload) :
    ((_update t d).2 = none ↔
      ∀ a ∈ observedAttrs, getattr (_update t d).1 a = getattr t a) ∧
    (∀ mc mbc mip, t.slowmode_delay = 0 →
      (_update t { rate_limit_per_user := none, thread_metadata := none,
                   name := none, last_message_id := none,
                   message_count := some mc, member_count := some mbc,
                   member_ids_preview := some mip }).2 = none) := by
  constructor
  · exact update_snd_none_iff t d
  · intro mc mbc mip h0
    rw [update_snd_none_iff]
    intro a ha
    rw [applyPayload_eq]
    rw [observedAttrs_eq] at ha
    fin_cases ha <;> simp [getattr, h0]

/-- Witness for thread_update_dedup: a counters-only update of a thread with
zero slowmode produces an empty diff. -/
theorem thread_update_dedup_witness :
    (_update exThreadA
      { rate_limit_per_user := none, thread_metadata := none, name := none,
        last_message_id := none, message_count := some 9,
        member_count := some 9, member_ids_preview := some [9] }).2 = none :=
  (thread_update_dedup exThreadA emptyPayload).2 9 9 [9] rfl

/-- C7: applying the same update payload twice in succession produces an
empty diff on the second application. -/
theorem thread_update_idempotent (t : Thread) (d : UpdatePayload) :
    (_update (_update t d).1 d).2 = none := by
  rw [update_snd_none_iff]
  intro a ha
  have h : (_update t d).1 = applyPayload t d := rfl
  rw [h, applyPayload_idem]

/- Helper lemmas about the member dict. -/

/-- Writing under one key does not disturb lookups of a different key. -/
lemma dget_dset_ne {j k : Nat} (h : j ≠ k) (v : ThreadMember) (m : MemberMap) :
    dget j (dset k v m) = dget j m := by
  induction m with
  | nil => simp [dget, dset, Ne.symm h]
  | cons p rest ih =>
    by_cases hp : p.1 = k
    · simp [dset, hp, dget, Ne.symm h]
    · by_cases hj : p.1 = j <;> simp [dset, hp, dget, hj, h, ih]

/-- dict.pop returns exactly dict.get of the key. -/
lemma dpop_fst (k : Nat) (m : MemberMap) : (dpop k m).1 = dget k m := by
  induction m with
  | nil => rfl
  | cons p rest ih =>
    by_cases hp : p.1 = k <;> simp [dpop, dget, hp, ih]

/-- dict.pop of an absent key returns None and leaves the dict unchanged. -/
lemma dpop_absent {k : Nat} {m : MemberMap} (h : dget k m = none) :
    dpop k m = (none, m) := by
  induction m with
  | nil => rfl
  | cons p rest ih =>
    by_cases hp : p.1 = k
    · simp [dget, hp] at h
    · simp [dget, hp] at h
      simp [dpop, hp, ih h]

/-- A key absent before a pop of any key is still absent afterwards. -/
lemma dget_dpop_none {j k : Nat} {m : MemberMap} (h : dget j m = none) :
    dget j (dpop k m).2 = none := by
  induction m with
  | nil => exact h
  | cons p rest ih =>
    by_cases hj : p.1 = j
    · simp [dget, hj] at h
    · simp [dget, hj] at h
      by_cases hp : p.1 = k
      · simpa [dpop, hp] using h
      · simpa [dpop, hp, dget, hj] using ih h

/-- C8: _pop_member of an id absent from the member map returns None — it
raises no error (the embedding is a total function) and the map (indeed the
whole thread) is unchanged; _pop_member of a present id returns the removed
member record. -/
theorem pop_member_total (t : Thread) (k : Nat) :
    (dget k t.members = none → _pop_member t k = (none, t)) ∧
    (∀ v, dget k t.members = some v → (_pop_member t k).1 = some v) := by
  constructor
  · intro h
    unfold _pop_member
    rw [dpop_absent h]
  · intro v h
    unfold _pop_member
    simp [dpop_fst, h]

/-- Witness for pop_member_total: a miss on an empty map and a hit on a
populated one. -/
theorem pop_member_total_witness :
    _pop_member exThreadA 5 = (none, exThreadA) ∧
    (_pop_member exThreadB 1).1 =
      some { id := 1, thread_id := 20, joined_at := some 9, flags := some 0 } :=
  ⟨(pop_member_total exThreadA 5).1 rfl,
   (pop_member_total exThreadB 1).2 _ rfl⟩

/-- A single member-map operation that is not a self write through the me
setter never makes the local user's id appear in the map. -/
lemma dget_self_applyOp_none (selfId : Nat) (t : Thread) (op : MemberOp)
    (h0 : dget selfId t.members = none) (hop : isSelfSet selfId op = false) :
    dget selfId (applyMemberOp selfId t op).members = none := by
  cases op with
  | add m =>
    show dget selfId (_add_member selfId t m).members = none
    unfold _add_member
    split
    case isTrue hne => simpa [dget_dset_ne (Ne.symm hne)] using h0
    case isFalse _ => exact h0
  | pop k =>
    show dget selfId (_pop_member t k).2.members = none
    unfold _pop_member
    exact dget_dpop_none h0
  | setMe m =>
    show dget selfId (setMeMember t m).members = none
    have hne : m.id ≠ selfId := by simpa [isSelfSet] using hop
    unfold setMeMember
    simpa [dget_dset_ne (Ne.symm hne)] using h0

/-- C6: the generic member-add path drops a record whose user id equals the
local user's id (the map is unchanged, in fact the whole thread is), and the
local user's record can enter the map only through the dedicated
self-membership path: over any sequence of member-map operations containing
no self write through the me setter, an initially absent local-user id stays
absent. -/
theorem member_self_only_via_me_path (selfId : Nat) (t : Thread)
    (m : ThreadMember) (ops : List MemberOp)
    (hm : m.id = selfId)
    (h0 : dget selfId t.members = none)
    (hops : ∀ op ∈ ops, isSelfSet selfId op = false) :
    _add_member selfId t m = t ∧
    dget selfId (applyMemberOps selfId t ops).members = none := by
  constructor
  · unfold _add_member
    rw [if_neg]
    simp [hm]
  · induction ops generalizing t with
    | nil => exact h0
    | cons op rest ih =>
      exact ih (applyMemberOp selfId t op)
        (dget_self_applyOp_none selfId t op h0 (hops op (List.mem_cons_self op rest)))
        (fun o ho => hops o (List.mem_cons_of_mem op ho))

/-- Witness for member_self_only_via_me_path: adding the local user's own
record is a no-op, and after a generic add of another user plus a removal the
local user is still absent. -/
theorem member_self_only_via_me_path_witness :
    _add_member 1 exThreadA
      { id := 1, thread_id := 10, joined_at := none, flags := none } = exThreadA ∧
    dget 1 (applyMemberOps 1 exThreadA
      [MemberOp.add { id := 1, thread_id := 10, joined_at := none, flags := none },
       MemberOp.add { id := 2, thread_id := 10, joined_at := none, flags := some 3 },
       MemberOp.pop 2]).members = none :=
  member_self_only_via_me_path 1 exThreadA _ _ rfl rfl (by decide)

/-- C2 (counterexample): the claim that an edit other than unarchiving of an
archived thread is rejected before any network call is false: on a concrete
archived thread, a rename-only edit (archived argument MISSING) still issues
the HTTP edit request. -/
theorem edit_archived_cex :
    exThreadA.archived = true ∧ exRenameFields.archived = none ∧
    exRenameFields.name = some "renamed" ∧
    (edit exThreadA exRenameFields).isSome = true :=
  ⟨rfl, rfl, rfl, rfl⟩

/-- C2 (amended): Thread.edit performs no local archived-state check at all:
for every thread, archived or not, and every combination of edit arguments
(including ones that do not touch the archived flag), the HTTP edit request
is issued, carrying the payload built from the provided fields; rejection of
edits to archived threads is left entirely to the server. -/
theorem edit_always_issues (t : Thread) (f : EditFields) :
    edit t f = some { channel_id := t.id, payload := edit_payload f } ∧
    (f.archived = none → "archived" ∉ (edit_payload f).map Prod.fst) := by
  refine ⟨rfl, fun h => ?_⟩
  rcases f with ⟨nm, ar, lk, inv, sd, aad⟩
  cases ar with
  | none =>
    cases nm <;> cases lk <;> cases inv <;> cases sd <;> cases aad <;>
      simp [edit_payload]
  | some x => simp at h

/-- Witness for edit_always_issues at an archived thread and a rename-only
edit. -/
theorem edit_always_issues_witness :
    edit exThreadA exRenameFields =
      some { channel_id := exThreadA.id, payload := edit_payload exRenameFields } ∧
    "archived" ∉ (edit_payload exRenameFields).map Prod.fst :=
  ⟨(edit_always_issues exThreadA exRenameFields).1,
   (edit_always_issues exThreadA exRenameFields).2 rfl⟩

/-- C1: when every THREAD_MEMBER_LIST_UPDATE event correlated with the
thread's id arrives after the fixed 15-unit timeout (in particular when none
arrives at all), fetch_members fails with the ProtocolTimeout error
(InvalidData) and the thread — member map included — is exactly what it was
before the call. -/
theorem fetch_members_timeout_unchanged (selfId : Nat) (t : Thread)
    (events : List ThreadMemberListUpdate)
    (h : ∀ e ∈ events, e.thread_id = t.id → fetchMembersTimeout < e.time) :
    fetch_members selfId t events = (.error .protocolTimeout, t) := by
  unfold fetch_members
  split
  next => rfl
  next ev hf =>
    have hmem : ev ∈ events := List.mem_of_find?_eq_some hf
    have hpred := List.find?_some hf
    have ht : fetchMembersTimeout < ev.time := h ev hmem (by simpa using hpred)
    rw [if_pos ht]

/-- Witness for fetch_members_timeout_unchanged: the only correlated event
arrives at time 30 > 15; an uncorrelated event arrives early but does not
resolve the future. -/
theorem fetch_members_timeout_unchanged_witness :
    fetch_members 1 exThreadB
      [{ thread_id := 20, time := 30, members := [{ user_id := 2, tag := 0 }] },
       { thread_id := 99, time := 1, members := [] }] =
      (.error .protocolTimeout, exThreadB) :=
  fetch_members_timeout_unchanged 1 exThreadB _ (by decide)

/-- C5 (code-bug evaluation): a correlated response arriving well inside the
timeout and carrying one member entry for user 2 (not previously in the map)
does NOT get merged: the wrapper dict built on threads.py line 682 has no
top-level user_id key, so ThreadMember._from_data raises an uncaught KeyError
at line 808 and fetch_members errors out with the thread untouched, instead
of merging the entry and returning the member list as the claim (and the
function's own docstring) describe. -/
theorem fetch_members_keyerror_eval :
    fetch_members 1 exThreadB
      [{ thread_id := 20, time := 3, members := [{ user_id := 2, tag := 0 }] }] =
      (.error .uncaughtKeyError, exThreadB) ∧
    dget 2 exThreadB.members = none :=
  ⟨rfl, rfl⟩

set_option maxRecDepth 4000 in
/-- C10 (code-bug evaluation): with fifty messages matching the check
followed by one that does not, the intermediate flush at the top of the 51st
iteration submits messages 1..50 and resets count to 0; the final flush then
computes ret[-0:], which in Python is the WHOLE ret list, so message 1 (like
every other matched message) is submitted to the delete call twice instead
of exactly once. -/
theorem purge_double_submission_eval :
    exPurgeCheck 1 = true ∧
    (purge exPurgeCheck exPurgeHistory).1.flatten.count 1 = 2 := by
  refine ⟨rfl, by decide⟩

/- Helper lemmas about the enum value map. -/

/-- Value lookup distributes over append. -/
lemma lookupEnumValue_append {α : Type} [DecidableEq α]
    (m1 m2 : List (α × EnumValue α)) (v : α) :
    lookupEnumValue (m1 ++ m2) v =
      (lookupEnumValue m1 v).or (lookupEnumValue m2 v) := by
  unfold lookupEnumValue
  rw [List.find?_append]
  cases m1.find? (fun p => decide (p.1 = v)) <;> rfl

/-- Value lookup in a one-entry map. -/
lemma lookupEnumValue_singleton {α : Type} [DecidableEq α]
    (k : α) (e : EnumValue α) (v : α) :
    lookupEnumValue [(k, e)] v = if k = v then some e else none := by
  unfold lookupEnumValue
  by_cases h : k = v <;> simp [List.find?, h]

/-- Folding the metaclass loop over further declarations extends value
lookup: an existing binding wins, otherwise the first later declaration of
the value is found. -/
lemma lookupEnumValue_foldl {α : Type} [DecidableEq α]
    (decls : List (String × α)) (m : List (α × EnumValue α)) (v : α) :
    lookupEnumValue (decls.foldl (fun m kv => addEnumDecl m kv.1 kv.2) m) v =
      (lookupEnumValue m v).or
        ((decls.find? (fun kv => decide (kv.2 = v))).map
          (fun kv => { name := kv.1, value := kv.2 })) := by
  induction decls generalizing m with
  | nil => simp
  | cons kv rest ih =>
    rw [List.foldl_cons, ih]
    by_cases hv : kv.2 = v
    · rw [List.find?_cons_of_pos _ (by simpa using hv)]
      unfold addEnumDecl
      cases hm : lookupEnumValue m kv.2 with
      | some e0 =>
        have hm2 : lookupEnumValue m v = some e0 := by rw [← hv]; exact hm
        simp [hm2]
      | none =>
        have hm2 : lookupEnumValue m v = none := by rw [← hv]; exact hm
        rw [lookupEnumValue_append, lookupEnumValue_singleton, if_pos hv, hm2]
        simp
    · rw [List.find?_cons_of_neg _ (by simpa using hv)]
      unfold addEnumDecl
      cases hm : lookupEnumValue m kv.2 with
      | some e0 => rfl
      | none =>
        rw [lookupEnumValue_append, lookupEnumValue_singleton, if_neg hv]
        simp

/-- cls._enum_value_map_ lookup finds the first declaration with the looked
up value. -/
lemma lookup_enum_value_map {α : Type} [DecidableEq α]
    (decls : List (String × α)) (v : α) :
    lookupEnumValue (enum_value_map decls) v =
      (decls.find? (fun kv => decide (kv.2 = v))).map
        (fun kv => { name := kv.1, value := kv.2 }) := by
  unfold enum_value_map
  rw [lookupEnumValue_foldl]
  simp [lookupEnumValue]

/-- C9: for every enum class built by the metaclass (any declared
(name, value) member list) and every lookup value, try_enum is total — the
embedding is a total function covering both the dict-hit and the fallback
path — and: the result always carries the raw input value unchanged; when
the value equals the value of a declared member, the canonical member (the
first declaration with that value, later declarations being mere aliases) is
returned; otherwise the result is the proxy named unknown_<value>. -/
theorem try_enum_total {α : Type} [DecidableEq α] [ToString α]
    (decls : List (String × α)) (v : α) :
    (try_enum decls v).value = v ∧
    (∀ res, decls.find? (fun kv => decide (kv.2 = v)) = some res →
      try_enum decls v = { name := res.1, value := res.2 }) ∧
    (decls.find? (fun kv => decide (kv.2 = v)) = none →
      try_enum decls v = create_unknown_value v ∧
      (try_enum decls v).name = "unknown_" ++ toString v) := by
  have hmap := lookup_enum_value_map decls v
  cases hf : decls.find? (fun kv => decide (kv.2 = v)) with
  | none =>
    rw [hf] at hmap
    have he : try_enum decls v = create_unknown_value v := by
      unfold try_enum
      rw [hmap]
      rfl
    refine ⟨?_, ?_, ?_⟩
    · rw [he]; rfl
    · intro res hres; exact absurd hres (by simp)
    · intro _; exact ⟨he, by rw [he]; rfl⟩
  | some res =>
    rw [hf] at hmap
    have hp := List.find?_some hf
    have hv : res.2 = v := of_decide_eq_true hp
    have he : try_enum decls v = { name := res.1, value := res.2 } := by
      unfold try_enum
      rw [hmap]
      rfl
    refine ⟨?_, ?_, ?_⟩
    · rw [he]; exact hv
    · intro res2 hres2
      cases hres2
      exact he
    · intro hnone; exact absurd hnone (by simp)

/-- Witness for try_enum_total on ChannelType: 12 resolves to the declared
private_thread member, and the undeclared 99 yields the unknown_99 proxy
carrying 99. -/
theorem try_enum_total_witness :
    try_enum channelTypeDecls 12 = { name := "private_thread", value := 12 } ∧
    try_enum channelTypeDecls 99 = { name := "unknown_99", value := 99 } := by
  constructor
  · exact (try_enum_total channelTypeDecls 12).2.1 ("private_thread", 12) (by decide)
  · have h := ((try_enum_total channelTypeDecls 99).2.2 (by decide)).1
    rw [h]
    rfl

end Selfbot
